import Mathlib

/-!
Verification of the workspace container orchestration subsystem of
open-agent-ide against its specification.

The development shallowly embeds the TypeScript route handlers and helpers:

* `execAndParse` (src/app/api/workspaces/[id]/opencode-session/route.ts,
  lines 86-114): the demultiplexer of the engine's exec stream.  Bytes are
  modelled as `Nat` values (a Node `Buffer` entry is always in 0..255);
  the structural recursion is driven by a fuel argument equal to the buffer
  length, which bounds the number of frames since every loop iteration
  consumes at least 8 bytes.
* the session-discovery `GET` handler of the same file (lines 35-83),
  with the two container `exec` calls abstracted as oracles that either
  return a trimmed string or throw an engine-client error.
* the `PUT` handlers of the workspace-environments route (src/unnamed/part_002)
  and of the environment route (src/unnamed/part_003), over a relational
  store modelled as lists of records.
* the client-side consumers of the persisted variables payload
  (src/unnamed/part_004 and CreateWorkspaceDialog.tsx), with `JSON.parse`
  abstracted as a fallible oracle.
* the Environment Merge Engine, which lives in lib/docker and is not part
  of the source tree; it is modelled from the spec's words (section 4.3).
-/

/-! ## Exec-stream demultiplexing (execAndParse, route.ts lines 99-113) -/

/-- The `rawOutput.readUInt32BE(i + 4)` of the loop body, taken at the start
of the current frame: big-endian 32-bit value of bytes 4..7 of `bs`. -/
def frameSize (bs : List Nat) : Nat :=
  bs.getD 4 0 * 16777216 + bs.getD 5 0 * 65536 + bs.getD 6 0 * 256 + bs.getD 7 0

/-- The demultiplexing loop of `execAndParse` (route.ts lines 101-111), with a
fuel argument for structural recursion.  One step: if at least 8 bytes remain,
read the payload length from bytes 4..7 of the header, emit the next
`frameSize` bytes (clamped at the end of the buffer, as `Buffer.slice` clamps)
and continue after them; otherwise the truncated tail is emitted raw.
The stream-type byte (byte 0 of the header) is never inspected. -/
def execDemuxFuel : Nat → List Nat → List Nat
  | 0, bs => bs
  | fuel + 1, bs =>
    if 8 ≤ bs.length then
      (bs.drop 8).take (frameSize bs) ++ execDemuxFuel fuel (bs.drop (8 + frameSize bs))
    else bs

/-- The demultiplexing loop of `execAndParse`: `bs.length` is enough fuel
because every iteration consumes at least eight bytes. -/
def execDemux (bs : List Nat) : List Nat :=
  execDemuxFuel bs.length bs

/-- JavaScript whitespace as far as single bytes of UTF-8 output are
concerned: tab, LF, VT, FF, CR and space. -/
def isJsWhitespaceByte (b : Nat) : Bool :=
  b = 9 || b = 10 || b = 11 || b = 12 || b = 13 || b = 32

/-- The `.trim()` on route.ts line 113, at byte level. -/
def trimBytes (bs : List Nat) : List Nat :=
  ((bs.dropWhile isJsWhitespaceByte).reverse.dropWhile isJsWhitespaceByte).reverse

/-- `execAndParse` (route.ts lines 86-114) as a function of the raw bytes the
exec stream delivered: demultiplex, then trim. -/
def execAndParse (bs : List Nat) : List Nat :=
  trimBytes (execDemux bs)

/-- The demultiplexer as claim C1 describes it: same framing, but the payload
is kept only when the stream-type byte (byte 0 of the header) is 1 (stdout)
or 2 (stderr); all other types are ignored.  This is the claim's wording, not
the source; it is compared with `execAndParse` above. -/
def claimDemuxFuel : Nat → List Nat → List Nat
  | 0, _ => []
  | fuel + 1, bs =>
    if 8 ≤ bs.length then
      (if bs.getD 0 0 = 1 || bs.getD 0 0 = 2 then (bs.drop 8).take (frameSize bs) else []) ++
        claimDemuxFuel fuel (bs.drop (8 + frameSize bs))
    else []

/-- Claim C1's selective demultiplexer, with the same fuel bound. -/
def claimDemux (bs : List Nat) : List Nat :=
  claimDemuxFuel bs.length bs

theorem execDemuxFuel_congr :
    ∀ (f₁ f₂ : Nat) (bs : List Nat), bs.length ≤ f₁ → bs.length ≤ f₂ →
      execDemuxFuel f₁ bs = execDemuxFuel f₂ bs := by
  intro f₁
  induction f₁ with
  | zero =>
    intro f₂ bs h₁ _
    have hb : bs = [] := List.eq_nil_of_length_eq_zero (Nat.le_zero.mp h₁)
    subst hb
    cases f₂ with
    | zero => rfl
    | succ g => simp [execDemuxFuel]
  | succ f ih =>
    intro f₂ bs h₁ h₂
    cases f₂ with
    | zero =>
      have hb : bs = [] := List.eq_nil_of_length_eq_zero (Nat.le_zero.mp h₂)
      subst hb
      simp [execDemuxFuel]
    | succ g =>
      simp only [execDemuxFuel]
      by_cases h8 : 8 ≤ bs.length
      · simp only [if_pos h8]
        have hlen : (bs.drop (8 + frameSize bs)).length ≤ bs.length - 8 := by
          rw [List.length_drop]
          omega
        have hf : (bs.drop (8 + frameSize bs)).length ≤ f := by omega
        have hg : (bs.drop (8 + frameSize bs)).length ≤ g := by omega
        rw [ih g (bs.drop (8 + frameSize bs)) hf hg]
      · simp [if_neg h8]

theorem execDemux_frame (t b1 b2 b3 s0 s1 s2 s3 : Nat) (payload rest : List Nat)
    (hlen : payload.length = s0 * 16777216 + s1 * 65536 + s2 * 256 + s3) :
    execDemux (t :: b1 :: b2 :: b3 :: s0 :: s1 :: s2 :: s3 :: (payload ++ rest)) =
      payload ++ execDemux rest := by
  set bs := t :: b1 :: b2 :: b3 :: s0 :: s1 :: s2 :: s3 :: (payload ++ rest) with hbs
  have hsz : frameSize bs = payload.length := by
    simp [frameSize, hbs, List.getD, hlen]
  have hlenbs : bs.length = 8 + payload.length + rest.length := by
    simp [hbs]
    omega
  have h8 : 8 ≤ bs.length := by omega
  have hdrop8 : bs.drop 8 = payload ++ rest := by simp [hbs]
  have hdropAll : bs.drop (8 + frameSize bs) = rest := by
    rw [hsz, hbs]
    have hsplit : t :: b1 :: b2 :: b3 :: s0 :: s1 :: s2 :: s3 :: (payload ++ rest) =
        (t :: b1 :: b2 :: b3 :: s0 :: s1 :: s2 :: s3 :: payload) ++ rest := by simp
    have hL : 8 + payload.length =
        (t :: b1 :: b2 :: b3 :: s0 :: s1 :: s2 :: s3 :: payload).length := by
      simp
      omega
    rw [hsplit, hL, List.drop_left]
  have htake : (bs.drop 8).take (frameSize bs) = payload := by
    rw [hsz, hdrop8, List.take_left]
  cases hfuel : bs.length with
  | zero => omega
  | succ n =>
    unfold execDemux
    rw [hfuel]
    simp only [execDemuxFuel]
    rw [if_pos h8, htake, hdropAll]
    have hrest : rest.length ≤ n := by omega
    rw [execDemuxFuel_congr n rest.length rest hrest (Nat.le_refl _)]

theorem execDemux_short (bs : List Nat) (h : bs.length < 8) : execDemux bs = bs := by
  unfold execDemux
  cases hl : bs.length with
  | zero => rfl
  | succ n =>
    simp only [execDemuxFuel]
    rw [if_neg]
    omega

/-- Claim C1, counterexample: on a single frame whose stream-type byte is 3,
`execAndParse` emits the payload, while the claim's selective demultiplexer
(types other than 1 and 2 ignored) emits nothing.  The code never inspects
the stream-type byte, so the claim as stated is false; there is also no
stdout-only extraction anywhere in the source. -/
theorem execAndParse_includes_unknown_stream_type :
    execAndParse [3, 0, 0, 0, 0, 0, 0, 3, 98, 97, 100] = [98, 97, 100] ∧
      claimDemux [3, 0, 0, 0, 0, 0, 0, 3, 98, 97, 100] = [] ∧
      ([98, 97, 100] : List Nat) ≠ [] := by
  refine ⟨by decide, by decide, by decide⟩

/-- Claim C1, amended: `execAndParse` interprets the buffer as repeating
frames of an 8-byte header (bytes 4-7 a big-endian unsigned 32-bit payload
length `L`) followed by `L` payload bytes, and concatenates EVERY frame's
payload in frame order, regardless of the stream-type byte (the binder `t`
below is arbitrary); a truncated trailing chunk of fewer than 8 bytes is
appended raw; the result is trimmed.  On the input
`[01 00 00 00 00 00 00 05] "hello" [02 00 00 00 00 00 00 03] "bad"` the
single (combined) extraction yields `"hellobad"`. -/
theorem execAndParse_frame_concatenation :
    (∀ (t b1 b2 b3 s0 s1 s2 s3 : Nat) (payload rest : List Nat),
        payload.length = s0 * 16777216 + s1 * 65536 + s2 * 256 + s3 →
        execDemux (t :: b1 :: b2 :: b3 :: s0 :: s1 :: s2 :: s3 :: (payload ++ rest)) =
          payload ++ execDemux rest) ∧
      (∀ bs : List Nat, bs.length < 8 → execDemux bs = bs) ∧
      (∀ bs : List Nat, execAndParse bs = trimBytes (execDemux bs)) ∧
      execAndParse ([1, 0, 0, 0, 0, 0, 0, 5] ++ [104, 101, 108, 108, 111] ++
          ([2, 0, 0, 0, 0, 0, 0, 3] ++ [98, 97, 100])) =
        [104, 101, 108, 108, 111, 98, 97, 100] := by
  refine ⟨execDemux_frame, execDemux_short, fun _ => rfl, by decide⟩

/-- Witness for the amended claim C1: the frame law applied to the first
frame of the example stream, the stdout frame carrying "hello". -/
theorem execAndParse_frame_concatenation_witness :
    execDemux (1 :: 0 :: 0 :: 0 :: 0 :: 0 :: 0 :: 5 ::
        ([104, 101, 108, 108, 111] ++ [2, 0, 0, 0, 0, 0, 0, 3, 98, 97, 100])) =
      [104, 101, 108, 108, 111] ++ execDemux [2, 0, 0, 0, 0, 0, 0, 3, 98, 97, 100] :=
  execAndParse_frame_concatenation.1 1 0 0 0 0 0 0 5
    [104, 101, 108, 108, 111] [2, 0, 0, 0, 0, 0, 0, 3, 98, 97, 100] (by decide)

/-! ## Session discovery probe (GET handler, route.ts lines 35-83) -/

/-- Outcome of one `container.exec` + `execAndParse` round trip: either the
trimmed output string, or an engine-client error thrown by the call. -/
inductive ExecOutcome where
  | ok (s : String)
  | err
deriving DecidableEq

/-- The two exec calls the handler may issue: the SQLite query of Method 1
(route.ts lines 41-50) and the filesystem scan of Method 2 (lines 55-64). -/
structure ProbeCalls where
  sqliteExec : ExecOutcome
  findExec : ExecOutcome
deriving DecidableEq

/-- `String.prototype.startsWith`, modelled on the character lists so that
it reduces in the kernel. -/
def jsStartsWith (s p : String) : Bool :=
  p.data.isPrefixOf s.data

/-- `[a-zA-Z0-9_]`, the character class of the session-id regular
expression on route.ts line 72. -/
def isWordChar (c : Char) : Bool :=
  c.isAlphanum || c = '_'

/-- Attempt of the regular expression `ses_[a-zA-Z0-9_]+` at the current
position only: the literal `ses_` followed by the greedy, nonempty run of
word characters. -/
def sesAt : List Char → Option (List Char)
  | 's' :: 'e' :: 's' :: '_' :: rest =>
    if rest.takeWhile isWordChar = [] then none
    else some ('s' :: 'e' :: 's' :: '_' :: rest.takeWhile isWordChar)
  | _ => none

/-- `String.prototype.match` with `/ses_[a-zA-Z0-9_]+/`: the match at the
leftmost position where one exists, or none. -/
def findSesMatch : List Char → Option (List Char)
  | [] => none
  | c :: rest =>
    match sesAt (c :: rest) with
    | some m => some m
    | none => findSesMatch rest

/-- `sessionId?.match(/ses_[a-zA-Z0-9_]+/)` of route.ts line 72, on strings. -/
def findSes (s : String) : Option String :=
  (findSesMatch s.data).map fun cs => String.mk cs

/-- A character list of the exact session-id form of the spec: `ses_`
followed by one or more alphanumeric/underscore characters. -/
def isSesIdFormChars : List Char → Bool
  | 's' :: 'e' :: 's' :: '_' :: rest => rest ≠ [] && rest.all isWordChar
  | _ => false

/-- A string of the exact session-id form of the spec: `ses_` followed by
one or more alphanumeric/underscore characters. -/
def isSesIdForm (s : String) : Bool :=
  isSesIdFormChars s.data

/-- The try block of the GET handler (route.ts lines 35-78), instrumented:
the first component is the block's outcome (`error` when an uncaught
engine-client error escapes it), the second records whether the Method 2
exec (the fallback strategy) was attempted.  Mirrors the control flow:
Method 1 runs first; only when it RETURNS a string that is empty or does
not start with `ses_` is Method 2 attempted; a throw anywhere aborts the
block.  The final candidate is matched against `ses_[a-zA-Z0-9_]+`. -/
def probeTryBlockT (c : ProbeCalls) : Except Unit (Option String) × Bool :=
  match c.sqliteExec with
  | .err => (.error (), false)
  | .ok sessionId =>
    if sessionId = "" || !(jsStartsWith sessionId "ses_") then
      match c.findExec with
      | .err => (.error (), true)
      | .ok findResult =>
        let sessionId2 := if findResult ≠ "" && jsStartsWith findResult "ses_"
          then findResult else sessionId
        (.ok (findSes sessionId2), true)
    else (.ok (findSes sessionId), false)

/-- Outcome of the try block alone. -/
def probeTryBlock (c : ProbeCalls) : Except Unit (Option String) :=
  (probeTryBlockT c).1

/-- Whether the fallback strategy (Method 2) was attempted. -/
def fallbackAttempted (c : ProbeCalls) : Bool :=
  (probeTryBlockT c).2

/-- What the route handler sends back for an authenticated owner of an
existing workspace: a JSON body, or an exception escaping the handler. -/
inductive RouteOutcome where
  | json (sessionId : Option String)
  | raised
deriving DecidableEq

/-- The GET handler from the try block on (route.ts lines 35-83): the catch
clause (lines 79-82) turns any error of the try block into the success
response with a null session id. -/
def probeRoute (c : ProbeCalls) : RouteOutcome :=
  match probeTryBlock c with
  | .ok r => .json r
  | .error _ => .json none

/-- Claim C3 (confirmed): for an existing owned workspace, the probe always
answers with a JSON response (never `raised`), and whenever an engine-client
error escapes the try block, the response is the explicit absence
`sessionId = null` rather than a propagated transport error. -/
theorem probeRoute_never_raises (c : ProbeCalls) :
    (∃ o, probeRoute c = .json o) ∧
      (probeTryBlock c = .error () → probeRoute c = .json none) := by
  constructor
  · unfold probeRoute
    cases probeTryBlock c with
    | ok r => exact ⟨r, rfl⟩
    | error e => exact ⟨none, rfl⟩
  · intro h
    unfold probeRoute
    rw [h]

/-- Witness for claim C3: a throwing SQLite exec yields the null-session
success response. -/
theorem probeRoute_never_raises_witness :
    probeRoute { sqliteExec := .err, findExec := .ok "ses_ab12" } = .json none :=
  (probeRoute_never_raises { sqliteExec := .err, findExec := .ok "ses_ab12" }).2 rfl

/-- Claim C2, counterexample: when the primary strategy throws an
engine-client error, the fallback strategy is NOT attempted — control jumps
to the handler's catch clause and the probe answers null, even though the
fallback would have yielded the valid id "ses_ab12".  The claim's "either
throws ... or returns" disjunction is therefore false in the throw case. -/
theorem probe_throw_skips_fallback :
    fallbackAttempted { sqliteExec := .err, findExec := .ok "ses_ab12" } = false ∧
      probeRoute { sqliteExec := .err, findExec := .ok "ses_ab12" } = .json none := by
  exact ⟨rfl, rfl⟩

/-- Claim C2, amended: the fallback strategy is attempted exactly when the
primary strategy RETURNS (without throwing) a string that is empty or does
not start with `ses_`; when the primary strategy throws, the probe aborts
to the catch-all and answers null without attempting the fallback. -/
theorem probe_fallback_iff_primary_unparseable (c : ProbeCalls) :
    (∀ s : String, c.sqliteExec = .ok s →
      (fallbackAttempted c = true ↔ (s = "" || !(jsStartsWith s "ses_")) = true)) ∧
      (c.sqliteExec = .err → fallbackAttempted c = false ∧ probeRoute c = .json none) := by
  constructor
  · intro s hs
    unfold fallbackAttempted probeTryBlockT
    rw [hs]
    dsimp only
    by_cases hcond : (s = "" || !(jsStartsWith s "ses_")) = true
    · rw [if_pos hcond]
      cases c.findExec <;> simp [hcond]
    · rw [if_neg hcond]
      simp [hcond]
  · intro hs
    unfold fallbackAttempted probeRoute probeTryBlock probeTryBlockT
    rw [hs]
    exact ⟨rfl, rfl⟩

/-- Witness for the amended claim C2: the primary strategy returning the
empty string makes the probe attempt the fallback. -/
theorem probe_fallback_iff_primary_unparseable_witness :
    fallbackAttempted { sqliteExec := .ok "", findExec := .ok "ses_ab12" } = true :=
  ((probe_fallback_iff_primary_unparseable
    { sqliteExec := .ok "", findExec := .ok "ses_ab12" }).1 "" rfl).mpr (by decide)

theorem all_takeWhile_self (p : α → Bool) :
    ∀ l : List α, (l.takeWhile p).all p = true := by
  intro l
  induction l with
  | nil => rfl
  | cons a rest ih =>
    by_cases hp : p a
    · simp [List.takeWhile, hp, ih]
    · simp [List.takeWhile, hp]

theorem sesAt_form (l : List Char) (cs : List Char) (h : sesAt l = some cs) :
    isSesIdFormChars cs = true := by
  unfold sesAt at h
  split at h
  case h_1 rest =>
    split at h
    case isTrue => exact absurd h (by simp)
    case isFalse hne =>
      have hcs : cs = 's' :: 'e' :: 's' :: '_' :: rest.takeWhile isWordChar := by
        exact (Option.some.injEq _ _ ▸ h).symm
      subst hcs
      simp only [isSesIdFormChars, Bool.and_eq_true]
      exact ⟨by simpa using hne, all_takeWhile_self _ _⟩
  case h_2 => exact absurd h (by simp)

theorem findSesMatch_form :
    ∀ (l cs : List Char), findSesMatch l = some cs → isSesIdFormChars cs = true := by
  intro l
  induction l with
  | nil => intro cs h; exact absurd h (by simp [findSesMatch])
  | cons c rest ih =>
    intro cs h
    unfold findSesMatch at h
    rcases hm : sesAt (c :: rest) with _ | m
    · rw [hm] at h
      exact ih cs h
    · rw [hm] at h
      have : m = cs := by exact Option.some.injEq _ _ ▸ h
      subst this
      exact sesAt_form _ _ hm

theorem findSes_form (s t : String) (h : findSes s = some t) : isSesIdForm t = true := by
  unfold findSes at h
  rcases hm : findSesMatch s.data with _ | cs
  · rw [hm] at h; exact absurd h (by simp)
  · rw [hm] at h
    simp only [Option.map_some', Option.some.injEq] at h
    rw [← h]
    show isSesIdFormChars (String.mk cs).data = true
    exact findSesMatch_form s.data cs hm

/-- Claim C4, counterexample: the final candidate "ses_abc!x" is NOT of the
exact form (fixed `ses_` followed only by word characters), yet the probe
returns the substring "ses_abc" instead of the no-session result: the regex
on route.ts line 72 performs a substring search, not a full-string
validation. -/
theorem probe_returns_substring_of_invalid_candidate :
    probeRoute { sqliteExec := .ok "ses_abc!x", findExec := .ok "" } =
        .json (some "ses_abc") ∧
      isSesIdForm "ses_abc!x" = false := by
  exact ⟨by decide, by decide⟩

/-- Claim C4, amended: the probe extracts the FIRST substring of the final
candidate that matches `ses_[a-zA-Z0-9_]+` (so a candidate that is not of
the exact form can still yield a session id drawn from inside it); whenever
the probe answers a non-null session id, that id itself is of the exact
form `ses_` followed by one or more alphanumeric/underscore characters, and
when no substring of the candidate matches, the probe answers null. -/
theorem probe_result_always_well_formed (c : ProbeCalls) :
    ∀ s : String, probeRoute c = .json (some s) → isSesIdForm s = true := by
  intro s h
  unfold probeRoute at h
  rcases hb : probeTryBlock c with e | r
  · rw [hb] at h; simp at h
  rw [hb] at h
  simp only [RouteOutcome.json.injEq] at h
  subst h
  unfold probeTryBlock probeTryBlockT at hb
  rcases hsql : c.sqliteExec with s0 | _
  on_goal 2 => rw [hsql] at hb; simp at hb
  rw [hsql] at hb
  dsimp only at hb
  by_cases hcond : (s0 = "" || !(jsStartsWith s0 "ses_")) = true
  · rw [if_pos hcond] at hb
    rcases hfind : c.findExec with f | _
    on_goal 2 => rw [hfind] at hb; simp at hb
    rw [hfind] at hb
    dsimp only at hb
    simp only [Except.ok.injEq] at hb
    exact findSes_form _ _ hb
  · rw [if_neg hcond] at hb
    simp only [Except.ok.injEq] at hb
    exact findSes_form _ _ hb

/-- Witness for the amended claim C4: the probe answer "ses_ab12" is of the
exact session-id form. -/
theorem probe_result_always_well_formed_witness : isSesIdForm "ses_ab12" = true :=
  probe_result_always_well_formed { sqliteExec := .ok "ses_ab12", findExec := .ok "" }
    "ses_ab12" (by decide)

/-! ## Environment Merge Engine (spec section 4.3) -/

/-- Modelled from the spec: one key overwrite of the Environment Merge
Engine, whose implementation (lib/docker's merge of the ordered environment
list) is not part of the source tree.  Spec 4.3: "overwrite each key present
in its variable map". -/
def overwriteKey (m : String → Option String) (kv : String × String) : String → Option String :=
  fun k => if k = kv.1 then some kv.2 else m k

/-- Modelled from the spec: applying one environment's variable map,
binding by binding, over an accumulated mapping. -/
def applyEnvVars (m : String → Option String) (vars : List (String × String)) :
    String → Option String :=
  vars.foldl overwriteKey m

/-- Modelled from the spec: the Environment Merge Engine (spec 4.3).
"Start from an empty mapping; for each environment in the given order,
overwrite each key present in its variable map."  An environment is
represented by its variable map, a list of key/value bindings. -/
def mergeEnvironments (envs : List (List (String × String))) : String → Option String :=
  envs.foldl applyEnvVars (fun _ => none)

/-- Whether an environment's variable map defines a key. -/
def definesKey (vars : List (String × String)) (k : String) : Bool :=
  vars.any fun kv => kv.1 = k

/-- The value an environment's variable map gives a key: the last binding
for that key (for a map, the unique one). -/
def lastValueIn (vars : List (String × String)) (k : String) : Option String :=
  (vars.reverse.find? fun kv => kv.1 = k).map fun kv => kv.2

theorem applyEnvVars_eval (vars : List (String × String)) :
    ∀ (m : String → Option String) (k : String),
      applyEnvVars m vars k =
        match lastValueIn vars k with
        | some v => some v
        | none => m k := by
  induction vars with
  | nil => intro m k; rfl
  | cons kv rest ih =>
    intro m k
    have hstep : applyEnvVars m (kv :: rest) k = applyEnvVars (overwriteKey m kv) rest k := rfl
    rw [hstep, ih]
    have hrev : (kv :: rest).reverse = rest.reverse ++ [kv] := by simp
    unfold lastValueIn
    rw [hrev, List.find?_append]
    rcases hr : rest.reverse.find? (fun p => decide (p.1 = k)) with _ | q
    · rw [hr]
      unfold overwriteKey
      by_cases hk : k = kv.1
      · subst hk
        simp
      · have h1 : ¬ (kv.1 = k) := fun hcontra => hk hcontra.symm
        simp [h1, hk]
    · rw [hr]
      simp

theorem definesKey_iff_lastValueIn (vars : List (String × String)) (k : String) :
    definesKey vars k = true ↔ (lastValueIn vars k).isSome = true := by
  unfold definesKey lastValueIn
  rw [Option.isSome_map']
  rw [List.find?_isSome, List.any_eq_true]
  constructor
  · rintro ⟨x, hx, hpx⟩
    exact ⟨x, List.mem_reverse.mpr hx, hpx⟩
  · rintro ⟨x, hx, hpx⟩
    exact ⟨x, List.mem_reverse.mp hx, hpx⟩

/-- Claim C5 (confirmed, against the spec-modelled merge): for every ordered
environment list, the merged mapping at key `k` is the value given by the
LAST environment in the list order that defines `k` (none when no
environment defines it), and the empty list yields the empty mapping. -/
theorem mergeEnvironments_last_writer_wins :
    (∀ (envs : List (List (String × String))) (k : String),
      mergeEnvironments envs k =
        match envs.reverse.find? (fun vars => definesKey vars k) with
        | some vars => lastValueIn vars k
        | none => none) ∧
      (∀ k : String, mergeEnvironments [] k = none) := by
  constructor
  · intro envs k
    induction envs using List.reverseRecOn with
    | nil => rfl
    | append_singleton envs e ih =>
      have hstep : mergeEnvironments (envs ++ [e]) k =
          applyEnvVars (mergeEnvironments envs) e k := by
        unfold mergeEnvironments
        rw [List.foldl_append]
        rfl
      rw [hstep, applyEnvVars_eval]
      have hrev : (envs ++ [e]).reverse = e :: envs.reverse := by simp
      rw [hrev]
      by_cases hd : definesKey e k = true
      · rcases Option.isSome_iff_exists.mp ((definesKey_iff_lastValueIn e k).mp hd) with ⟨v, hv⟩
        simp [List.find?, hd, hv]
      · have hnone : lastValueIn e k = none := by
          rcases hval : lastValueIn e k with _ | v
          · rfl
          · exact absurd ((definesKey_iff_lastValueIn e k).mpr (by simp [hval])) hd
        have hdf : definesKey e k = false := by
          rcases hb : definesKey e k with _ | _
          · rfl
          · exact absurd hb hd
        simp only [List.find?, hdf]
        rw [hnone]
        exact ih
  · intro k
    rfl

/-! ## Relational store, link updates and variable-payload consumers -/

/-- An Environment record of the persisted store (prisma model). -/
structure Environment where
  id : String
  userId : String
  name : String
  description : Option String
  variablesJson : String
deriving DecidableEq

/-- A Workspace record of the persisted store (the fields the handlers
under study read). -/
structure Workspace where
  id : String
  userId : String
  status : String
deriving DecidableEq

/-- A WorkspaceEnvironment link row. -/
structure WorkspaceEnvironment where
  workspaceId : String
  environmentId : String
deriving DecidableEq

/-- The persisted relational store, as lists of records in store order
(prisma findMany without orderBy returns records in this order). -/
structure Store where
  workspaces : List Workspace
  environments : List Environment
  links : List WorkspaceEnvironment
deriving DecidableEq

/-- prisma.environment.findMany with the id-in-list and userId filter
(part_002 lines 89-94 and 120-125): the matching records, in STORE order,
not in the order of the id list. -/
def findManyOwnedEnvs (store : Store) (environmentIds : List String) (userId : String) :
    List Environment :=
  store.environments.filter fun e => decide (e.id ∈ environmentIds ∧ e.userId = userId)

/-- Response of PUT /api/workspaces/[id]/environments: 404, 403, or 200
with the environments that were fetched for the sync step. -/
inductive WsEnvsPutResponse where
  | notFound
  | forbidden
  | okEnvs (environments : List Environment)
deriving DecidableEq

/-- PUT /api/workspaces/[id]/environments (part_002 lines 56-149), after
authentication and body parsing.  Steps, in source order: find the owned
workspace (404 when absent); when the requested id list is nonempty, fetch
the owned environments among them and reject with 403 when the count
differs from the request length; delete all links of the workspace; insert
one link per requested id, in request order; re-fetch the requested
environments (store order); call syncEnvironmentToWorkspaces inside
try/catch — `syncThrows` tells whether that call (implemented in
lib/docker, outside the tree) throws; either way the 200 response with the
fetched environments is returned. -/
def putWorkspaceEnvironments (store : Store) (sessionUserId wsId : String)
    (environmentIds : List String) (syncThrows : Bool) : Store × WsEnvsPutResponse :=
  match store.workspaces.find? (fun w => decide (w.id = wsId ∧ w.userId = sessionUserId)) with
  | none => (store, .notFound)
  | some _ =>
    if environmentIds.length > 0 ∧
        (findManyOwnedEnvs store environmentIds sessionUserId).length ≠ environmentIds.length
    then (store, .forbidden)
    else
      let store1 : Store :=
        { store with links := store.links.filter fun l => decide (l.workspaceId ≠ wsId) }
      let store2 : Store :=
        { store1 with links := store1.links ++ environmentIds.map fun envId =>
            { workspaceId := wsId, environmentId := envId } }
      let environmentsToSync := findManyOwnedEnvs store2 environmentIds sessionUserId
      match (if syncThrows then Except.error () else Except.ok ()) with
      | Except.error _ => (store2, .okEnvs environmentsToSync)
      | Except.ok _ => (store2, .okEnvs environmentsToSync)

/-- The abstract outcome of JSON.parse restricted to JSON objects of
strings: ok with the key/value entries in object order, or error for a
thrown SyntaxError. -/
abbrev JsonParseFn := String → Except Unit (List (String × String))

/-- JavaScript whitespace on characters, for String.prototype.trim. -/
def isJsWhitespaceChar (c : Char) : Bool :=
  c = ' ' || c = '\t' || c = '\n' || c = '\r' || c = '\x0b' || c = '\x0c'

/-- `String.prototype.trim`, modelled on the character list. -/
def jsTrimString (s : String) : String :=
  String.mk (((s.data.dropWhile isJsWhitespaceChar).reverse.dropWhile
    isJsWhitespaceChar).reverse)

/-- The `variables` field of the PUT /api/environments/[id] body: absent,
a JSON string, or already an object. -/
inductive VarsInput where
  | absent
  | str (s : String)
  | obj (entries : List (String × String))
deriving DecidableEq

/-- Response of PUT /api/environments/[id]: 404, 400 (invalid variables
format), or 200 with the updated record. -/
inductive EnvPutResponse where
  | notFound
  | badRequest
  | okEnv (environment : Environment)
deriving DecidableEq

/-- PUT /api/environments/[id] (part_003 lines 51-126), after
authentication and body parsing.  Steps, in source order: find the owned
environment (404 when absent); parse the variables field (a string is
JSON.parsed inside try/catch, a parse failure answers 400; an object is
taken as is; absent leaves the stored payload untouched); update the
record (name and description trimmed when provided); for every workspace
linked to the environment whose status is "running", call
syncEnvironmentToWorkspaces inside its own try/catch — `syncThrows` tells,
per workspace id, whether that call throws; the loop continues and the 200
response with the updated record is returned regardless. -/
def putEnvironment (store : Store) (jsonParse : JsonParseFn)
    (jsonStringify : List (String × String) → String)
    (sessionUserId envId : String)
    (name? description? : Option String) (variables? : VarsInput)
    (syncThrows : String → Bool) : Store × EnvPutResponse :=
  match store.environments.find? (fun e => decide (e.id = envId ∧ e.userId = sessionUserId)) with
  | none => (store, .notFound)
  | some existingEnvironment =>
    let parsed : Except Unit (List (String × String)) :=
      match variables? with
      | .absent => .ok []
      | .str s => jsonParse s
      | .obj entries => .ok entries
    match parsed with
    | .error _ => (store, .badRequest)
    | .ok parsedVariables =>
      let updatedEnvironment : Environment :=
        { existingEnvironment with
          name := match name? with
            | some n => jsTrimString n
            | none => existingEnvironment.name
          description := match description? with
            | some d => some (jsTrimString d)
            | none => existingEnvironment.description
          variablesJson := match variables? with
            | .absent => existingEnvironment.variablesJson
            | _ => jsonStringify parsedVariables }
      let store1 : Store :=
        { store with environments := store.environments.map fun e =>
            if e.id = envId then updatedEnvironment else e }
      let linkedWorkspaces : List Workspace :=
        (store.links.filter fun l => decide (l.environmentId = envId)).filterMap fun l =>
          store.workspaces.find? fun w => decide (w.id = l.workspaceId)
      let _syncOutcomes : List Unit :=
        linkedWorkspaces.filterMap fun w =>
          if w.status = "running" then
            some (match (if syncThrows w.id then Except.error () else Except.ok ()) with
              | Except.error _ => ()
              | Except.ok _ => ())
          else none
      (store1, .okEnv updatedEnvironment)

/-- One key/value row of the client-side variables editor (part_004). -/
structure VariableEntry where
  key : String
  value : String
deriving DecidableEq

/-- parseVariables (part_004 lines 47-57): JSON.parse inside try/catch;
a SyntaxError yields the empty entry list. -/
def parseVariables (jsonParse : JsonParseFn) (variablesJson : String) : List VariableEntry :=
  match jsonParse variablesJson with
  | .ok entries => entries.map fun kv => { key := kv.1, value := kv.2 }
  | .error _ => []

/-- getVariableCount (CreateWorkspaceDialog.tsx lines 147-153 and 555-561):
Object.keys(JSON.parse(variables)).length inside try/catch; 0 on a
SyntaxError. -/
def getVariableCount (jsonParse : JsonParseFn) (variablesJson : String) : Nat :=
  match jsonParse variablesJson with
  | .ok entries => entries.length
  | .error _ => 0

/-- The inline variable-count display of EnvironmentsClient (part_004 line
285): Object.keys(JSON.parse(env.variables with the empty-object literal
substituted only for the falsy empty string)).length, with NO try/catch —
a SyntaxError escapes the render. -/
def environmentsClientVariableCount (jsonParse : JsonParseFn) (variablesJson : String) :
    Except Unit Nat :=
  match jsonParse (if variablesJson = "" then "\x7b\x7d" else variablesJson) with
  | .ok entries => .ok entries.length
  | .error e => .error e

theorem dedup_length_lt_of_not_nodup {ids : List String} (h : ¬ ids.Nodup) :
    ids.dedup.length < ids.length := by
  have hs : List.Sublist ids.dedup ids := List.dedup_sublist ids
  have hne : ids.dedup ≠ ids := fun he => h (he ▸ List.nodup_dedup ids)
  have hle := hs.length_le
  rcases Nat.lt_or_ge ids.dedup.length ids.length with hlt | hge
  · exact hlt
  · exact absurd (hs.eq_of_length (Nat.le_antisymm hle hge)) hne

theorem nodup_avoid_length_lt {l ids : List String} {bad : String}
    (hnd : l.Nodup) (hsub : ∀ x ∈ l, x ∈ ids) (hmem : bad ∈ ids) (hnot : bad ∉ l) :
    l.length < ids.length := by
  have hsub2 : l ⊆ (ids.dedup).erase bad := by
    intro x hx
    have hxids : x ∈ ids.dedup := List.mem_dedup.mpr (hsub x hx)
    have hxne : x ≠ bad := fun h => hnot (h ▸ hx)
    exact (List.mem_erase_of_ne hxne).mpr hxids
  have h1 : l.length ≤ ((ids.dedup).erase bad).length :=
    (List.subperm_of_subset hnd hsub2).length_le
  have hbd : bad ∈ ids.dedup := List.mem_dedup.mpr hmem
  have h2 : ((ids.dedup).erase bad).length = ids.dedup.length - 1 :=
    List.length_erase_of_mem hbd
  have h3 : ids.dedup.length ≤ ids.length := (List.dedup_sublist ids).length_le
  have h4 : 0 < ids.dedup.length := List.length_pos_of_mem hbd
  omega

theorem nodup_dup_length_lt {l ids : List String}
    (hnd : l.Nodup) (hsub : ∀ x ∈ l, x ∈ ids) (hdup : ¬ ids.Nodup) :
    l.length < ids.length := by
  have hsub2 : l ⊆ ids.dedup := fun x hx => List.mem_dedup.mpr (hsub x hx)
  have h1 : l.length ≤ ids.dedup.length := (List.subperm_of_subset hnd hsub2).length_le
  have h2 := dedup_length_lt_of_not_nodup hdup
  omega

theorem findManyOwnedEnvs_ids_nodup (store : Store) (ids : List String) (u : String)
    (hnd : (store.environments.map Environment.id).Nodup) :
    ((findManyOwnedEnvs store ids u).map Environment.id).Nodup := by
  have hsl : List.Sublist ((findManyOwnedEnvs store ids u).map Environment.id)
      (store.environments.map Environment.id) :=
    (List.filter_sublist _).map _
  exact hnd.sublist hsl

theorem findManyOwnedEnvs_ids_subset (store : Store) (ids : List String) (u : String) :
    ∀ x ∈ (findManyOwnedEnvs store ids u).map Environment.id, x ∈ ids := by
  intro x hx
  rcases List.mem_map.mp hx with ⟨e, he, hex⟩
  have hef := List.mem_filter.mp he
  have hprop := of_decide_eq_true hef.2
  exact hex ▸ hprop.1

theorem findManyOwnedEnvs_mem (store : Store) (ids : List String) (u : String) :
    ∀ e ∈ findManyOwnedEnvs store ids u, e ∈ store.environments ∧ e.id ∈ ids ∧ e.userId = u := by
  intro e he
  have hef := List.mem_filter.mp he
  have hprop := of_decide_eq_true hef.2
  exact ⟨hef.1, hprop.1, hprop.2⟩

theorem put_success_characterization (store : Store) (sessionUserId wsId : String)
    (environmentIds : List String) (syncThrows : Bool) (st : Store) (envs : List Environment)
    (hput : putWorkspaceEnvironments store sessionUserId wsId environmentIds syncThrows =
      (st, .okEnvs envs)) :
    st.workspaces = store.workspaces ∧ st.environments = store.environments ∧
      st.links = store.links.filter (fun l => decide (l.workspaceId ≠ wsId)) ++
        environmentIds.map (fun envId => { workspaceId := wsId, environmentId := envId }) ∧
      envs = findManyOwnedEnvs store environmentIds sessionUserId ∧
      ¬ (environmentIds.length > 0 ∧
        (findManyOwnedEnvs store environmentIds sessionUserId).length ≠ environmentIds.length) := by
  unfold putWorkspaceEnvironments at hput
  rcases hw : store.workspaces.find?
      (fun w => decide (w.id = wsId ∧ w.userId = sessionUserId)) with _ | w
  · rw [hw] at hput
    simp at hput
  rw [hw] at hput
  dsimp only at hput
  by_cases hcond : environmentIds.length > 0 ∧
      (findManyOwnedEnvs store environmentIds sessionUserId).length ≠ environmentIds.length
  · rw [if_pos hcond] at hput
    simp at hput
  rw [if_neg hcond] at hput
  cases syncThrows with
  | false =>
    simp only [Bool.false_eq_true, if_false] at hput
    have h1 := congrArg Prod.fst hput
    have h2 := congrArg Prod.snd hput
    simp only at h1 h2
    injection h2 with h4
    refine ⟨?_, ?_, ?_, h4.symm, hcond⟩ <;> rw [← h1]
  | true =>
    simp only [if_true] at hput
    have h1 := congrArg Prod.fst hput
    have h2 := congrArg Prod.snd hput
    simp only at h1 h2
    injection h2 with h4
    refine ⟨?_, ?_, ?_, h4.symm, hcond⟩ <;> rw [← h1]

/-- Claim C7 (confirmed): when some requested environment id has no record
owned by the workspace's owner, the ownership check's count comparison
fails before any link is touched: the handler answers 403 and the store —
in particular the workspace's previously linked environments — is returned
unchanged.  The hypothesis that environment ids are unique in the store is
the primary-key invariant of the prisma schema. -/
theorem put_rejects_unowned_id (store : Store) (sessionUserId wsId bad : String)
    (environmentIds : List String) (syncThrows : Bool)
    (hnd : (store.environments.map Environment.id).Nodup)
    (hws : (store.workspaces.find?
      (fun w => decide (w.id = wsId ∧ w.userId = sessionUserId))).isSome = true)
    (hmem : bad ∈ environmentIds)
    (hnotowned : ∀ e ∈ store.environments, ¬ (e.id = bad ∧ e.userId = sessionUserId)) :
    putWorkspaceEnvironments store sessionUserId wsId environmentIds syncThrows =
      (store, .forbidden) := by
  have hbadnot : bad ∉ (findManyOwnedEnvs store environmentIds sessionUserId).map
      Environment.id := by
    intro hbadin
    rcases List.mem_map.mp hbadin with ⟨e, he, hbe⟩
    have hmem2 := findManyOwnedEnvs_mem store environmentIds sessionUserId e he
    exact hnotowned e hmem2.1 ⟨hbe, hmem2.2.2⟩
  have hlt : (findManyOwnedEnvs store environmentIds sessionUserId).length <
      environmentIds.length := by
    have := nodup_avoid_length_lt
      (findManyOwnedEnvs_ids_nodup store environmentIds sessionUserId hnd)
      (findManyOwnedEnvs_ids_subset store environmentIds sessionUserId) hmem hbadnot
    rwa [List.length_map] at this
  unfold putWorkspaceEnvironments
  rcases hw : store.workspaces.find?
      (fun w => decide (w.id = wsId ∧ w.userId = sessionUserId)) with _ | w
  · rw [hw] at hws
    simp at hws
  dsimp only
  rw [if_pos ⟨List.length_pos_of_mem hmem, Nat.ne_of_lt hlt⟩]
  rw [hw]

/-- Witness for claim C7: requesting ["envA", "envX"] where only envA exists
and is owned leaves the store untouched and answers 403. -/
theorem put_rejects_unowned_id_witness :
    putWorkspaceEnvironments
      { workspaces := [{ id := "w1", userId := "u1", status := "running" }],
        environments :=
          [{ id := "envA", userId := "u1", name := "A", description := none,
             variablesJson := "" }],
        links := [{ workspaceId := "w1", environmentId := "envA" }] }
      "u1" "w1" ["envA", "envX"] false =
    ({ workspaces := [{ id := "w1", userId := "u1", status := "running" }],
        environments :=
          [{ id := "envA", userId := "u1", name := "A", description := none,
             variablesJson := "" }],
        links := [{ workspaceId := "w1", environmentId := "envA" }] },
      .forbidden) :=
  put_rejects_unowned_id _ "u1" "w1" "envX" ["envA", "envX"] false
    (by decide) (by decide) (by decide) (by decide)

/-- Claim C10 (confirmed): a request list containing the same environment id
twice makes the count comparison fail — distinct owned records found can
never number as many as a list with duplicates — so the handler answers 403
with the store unchanged; and consequently a successful update can never
leave duplicate (workspace, environment) link rows for the workspace, since
the delete-all-then-insert path only runs with a duplicate-free id list.
The Nodup hypothesis on stored environment ids is the primary-key
invariant. -/
theorem put_rejects_duplicate_ids (store : Store) (sessionUserId wsId : String)
    (environmentIds : List String) (syncThrows : Bool)
    (hnd : (store.environments.map Environment.id).Nodup)
    (hws : (store.workspaces.find?
      (fun w => decide (w.id = wsId ∧ w.userId = sessionUserId))).isSome = true)
    (hdup : ¬ environmentIds.Nodup) :
    putWorkspaceEnvironments store sessionUserId wsId environmentIds syncThrows =
        (store, .forbidden) ∧
      (∀ (ids2 : List String) (b2 : Bool) (st : Store) (envs : List Environment),
        putWorkspaceEnvironments store sessionUserId wsId ids2 b2 = (st, .okEnvs envs) →
        (st.links.filter fun l => decide (l.workspaceId = wsId)).Nodup) := by
  constructor
  · have hlt : (findManyOwnedEnvs store environmentIds sessionUserId).length <
        environmentIds.length := by
      have := nodup_dup_length_lt
        (findManyOwnedEnvs_ids_nodup store environmentIds sessionUserId hnd)
        (findManyOwnedEnvs_ids_subset store environmentIds sessionUserId) hdup
      rwa [List.length_map] at this
    have hpos : 0 < environmentIds.length := by
      cases environmentIds with
      | nil => exact absurd List.nodup_nil hdup
      | cons a l => simp
    unfold putWorkspaceEnvironments
    rcases hw : store.workspaces.find?
        (fun w => decide (w.id = wsId ∧ w.userId = sessionUserId)) with _ | w
    · rw [hw] at hws
      simp at hws
    dsimp only
    rw [if_pos ⟨hpos, Nat.ne_of_lt hlt⟩]
    rw [hw]
  · intro ids2 b2 st envs hput
    obtain ⟨_, _, hlinks, henvs, hcond⟩ :=
      put_success_characterization store sessionUserId wsId ids2 b2 st envs hput
    have hids2 : ids2.Nodup := by
      by_contra hdup2
      have hlt2 : (findManyOwnedEnvs store ids2 sessionUserId).length < ids2.length := by
        have := nodup_dup_length_lt
          (findManyOwnedEnvs_ids_nodup store ids2 sessionUserId hnd)
          (findManyOwnedEnvs_ids_subset store ids2 sessionUserId) hdup2
        rwa [List.length_map] at this
      have hpos2 : 0 < ids2.length := by
        cases ids2 with
        | nil => exact absurd List.nodup_nil hdup2
        | cons a l => simp
      exact hcond ⟨hpos2, Nat.ne_of_lt hlt2⟩
    rw [hlinks, List.filter_append]
    have hfirst : (store.links.filter fun l => decide (l.workspaceId ≠ wsId)).filter
        (fun l => decide (l.workspaceId = wsId)) = [] := by
      rw [List.filter_eq_nil_iff]
      intro a ha
      have hne := of_decide_eq_true (List.mem_filter.mp ha).2
      simp [hne]
    have hsecond : (ids2.map fun envId =>
        ({ workspaceId := wsId, environmentId := envId } : WorkspaceEnvironment)).filter
          (fun l => decide (l.workspaceId = wsId)) =
        ids2.map fun envId => { workspaceId := wsId, environmentId := envId } := by
      rw [List.filter_eq_self]
      intro a ha
      rcases List.mem_map.mp ha with ⟨i, _, hi⟩
      rw [← hi]
      simp
    rw [hfirst, hsecond, List.nil_append]
    refine hids2.map ?_
    intro x y hxy
    simpa using congrArg WorkspaceEnvironment.environmentId hxy

/-- Witness for claim C10: requesting ["envA", "envA"] for a workspace that
owns envA answers 403 and leaves the store unchanged. -/
theorem put_rejects_duplicate_ids_witness :
    putWorkspaceEnvironments
      { workspaces := [{ id := "w1", userId := "u1", status := "running" }],
        environments :=
          [{ id := "envA", userId := "u1", name := "A", description := none,
             variablesJson := "" }],
        links := [] }
      "u1" "w1" ["envA", "envA"] false =
    ({ workspaces := [{ id := "w1", userId := "u1", status := "running" }],
        environments :=
          [{ id := "envA", userId := "u1", name := "A", description := none,
             variablesJson := "" }],
        links := [] },
      .forbidden) :=
  (put_rejects_duplicate_ids _ "u1" "w1" ["envA", "envA"] false
    (by decide) (by decide) (by decide)).1

/-- The two environments of the claim C6 scenario, in store order: envA was
created first, envB second. -/
def c6EnvA : Environment :=
  { id := "envA", userId := "u1", name := "A", description := none, variablesJson := "" }

/-- Second environment of the claim C6 scenario. -/
def c6EnvB : Environment :=
  { id := "envB", userId := "u1", name := "B", description := none, variablesJson := "" }

/-- Store of the claim C6 scenario: one workspace, the two environments in
store order [envA, envB], no links yet. -/
def c6Store : Store :=
  { workspaces := [{ id := "w1", userId := "u1", status := "running" }],
    environments := [c6EnvA, c6EnvB],
    links := [] }

/-- Claim C6, counterexample: requesting the order ["envB", "envA"] succeeds,
but the environments passed to the sync step are re-fetched with an id-in-set
query and arrive in STORE order [envA, envB], not in the requested order —
the claim's "in the order given in the request" is false.  (The link rows
themselves are inserted in request order, but the association carries no
order column, and the sync list is the re-fetched one.) -/
theorem put_sync_list_in_store_order :
    (putWorkspaceEnvironments c6Store "u1" "w1" ["envB", "envA"] false).2 =
        .okEnvs [c6EnvA, c6EnvB] ∧
      [c6EnvA, c6EnvB].map Environment.id ≠ ["envB", "envA"] := by
  exact ⟨by decide, by decide⟩

/-- Claim C6, amended: a successful update replaces the workspace's links
wholesale — every link row of the workspace deleted, then exactly the
requested ids inserted, in request order — and the environment list passed
to the sync step consists of exactly the requested environments (one per
requested id, each owned by the caller), but ordered as a sublist of the
store's record order rather than by the request order. -/
theorem put_wholesale_replacement (store : Store) (sessionUserId wsId : String)
    (environmentIds : List String) (syncThrows : Bool) (st : Store) (envs : List Environment)
    (hnd : (store.environments.map Environment.id).Nodup)
    (hput : putWorkspaceEnvironments store sessionUserId wsId environmentIds syncThrows =
      (st, .okEnvs envs)) :
    st.workspaces = store.workspaces ∧ st.environments = store.environments ∧
      st.links = store.links.filter (fun l => decide (l.workspaceId ≠ wsId)) ++
        environmentIds.map (fun envId => { workspaceId := wsId, environmentId := envId }) ∧
      envs.length = environmentIds.length ∧
      (∀ e ∈ envs, e ∈ store.environments ∧ e.id ∈ environmentIds ∧
        e.userId = sessionUserId) ∧
      List.Sublist envs store.environments ∧
      (∀ k ∈ environmentIds, k ∈ envs.map Environment.id) := by
  obtain ⟨hws, henv, hlinks, henvs, hcond⟩ :=
    put_success_characterization store sessionUserId wsId environmentIds syncThrows st envs hput
  have hlen : envs.length = environmentIds.length := by
    rcases Nat.eq_zero_or_pos environmentIds.length with hz | hpos
    · have hnil : environmentIds = [] := List.length_eq_zero.mp hz
      subst hnil
      have : findManyOwnedEnvs store [] sessionUserId = [] := by
        unfold findManyOwnedEnvs
        rw [List.filter_eq_nil_iff]
        intro a _
        simp
      rw [henvs, this, hz]
      rfl
    · have hfe : (findManyOwnedEnvs store environmentIds sessionUserId).length =
          environmentIds.length := by
        by_contra hne
        exact hcond ⟨hpos, hne⟩
      rw [henvs, hfe]
  refine ⟨hws, henv, hlinks, hlen, ?_, ?_, ?_⟩
  · intro e he
    exact findManyOwnedEnvs_mem store environmentIds sessionUserId e (henvs ▸ he)
  · rw [henvs]
    exact List.filter_sublist store.environments
  · intro k hk
    by_contra hknot
    have hlt : (envs.map Environment.id).length < environmentIds.length := by
      refine nodup_avoid_length_lt ?_ ?_ hk hknot
      · rw [henvs]
        exact findManyOwnedEnvs_ids_nodup store environmentIds sessionUserId hnd
      · rw [henvs]
        exact findManyOwnedEnvs_ids_subset store environmentIds sessionUserId
    rw [List.length_map, hlen] at hlt
    exact Nat.lt_irrefl _ hlt

/-- Witness for the amended claim C6: in the two-environment scenario, the
successful update of ["envB", "envA"] inserts the links in request order
while the sync list [envA, envB] is a store-order sublist covering both
requested ids. -/
theorem put_wholesale_replacement_witness :
    ({ workspaces := c6Store.workspaces, environments := c6Store.environments,
        links := [{ workspaceId := "w1", environmentId := "envB" },
          { workspaceId := "w1", environmentId := "envA" }] } : Store).links =
        c6Store.links.filter (fun l => decide (l.workspaceId ≠ "w1")) ++
          ["envB", "envA"].map (fun envId =>
            { workspaceId := "w1", environmentId := envId }) ∧
      ([c6EnvA, c6EnvB] : List Environment).length = (["envB", "envA"] : List String).length :=
  have h := put_wholesale_replacement c6Store "u1" "w1" ["envB", "envA"] false
    { workspaces := c6Store.workspaces, environments := c6Store.environments,
      links := [{ workspaceId := "w1", environmentId := "envB" },
        { workspaceId := "w1", environmentId := "envA" }] }
    [c6EnvA, c6EnvB] (by decide) (by decide)
  ⟨h.2.2.1, h.2.2.2.1⟩

/-- Claim C8 (confirmed): in both handlers the sync into the running
containers sits inside its own try/catch, so a throwing sync produces
exactly the same persisted store and the same response as a succeeding
sync; in particular every run that answers the success response under a
succeeding sync answers the identical success response — same persisted
state, same body — when the sync throws.  A sync failure can never fail the
overall request. -/
theorem sync_errors_swallowed :
    (∀ (store : Store) (u w : String) (ids : List String) (b : Bool),
        putWorkspaceEnvironments store u w ids b = putWorkspaceEnvironments store u w ids false) ∧
      (∀ (store : Store) (jsonParse : JsonParseFn)
          (jsonStringify : List (String × String) → String) (u eid : String)
          (name? description? : Option String) (variables? : VarsInput) (f : String → Bool),
        putEnvironment store jsonParse jsonStringify u eid name? description? variables? f =
          putEnvironment store jsonParse jsonStringify u eid name? description? variables?
            (fun _ => false)) ∧
      (∀ (store : Store) (u w : String) (ids : List String) (b : Bool) (st : Store)
          (envs : List Environment),
        putWorkspaceEnvironments store u w ids false = (st, .okEnvs envs) →
        putWorkspaceEnvironments store u w ids b = (st, .okEnvs envs)) ∧
      (∀ (store : Store) (jsonParse : JsonParseFn)
          (jsonStringify : List (String × String) → String) (u eid : String)
          (name? description? : Option String) (variables? : VarsInput) (f : String → Bool)
          (st : Store) (env : Environment),
        putEnvironment store jsonParse jsonStringify u eid name? description? variables?
            (fun _ => false) = (st, .okEnv env) →
        putEnvironment store jsonParse jsonStringify u eid name? description? variables? f =
          (st, .okEnv env)) := by
  have h1 : ∀ (store : Store) (u w : String) (ids : List String) (b : Bool),
      putWorkspaceEnvironments store u w ids b = putWorkspaceEnvironments store u w ids false := by
    intro store u w ids b
    cases b <;> rfl
  refine ⟨h1, fun store jp js u eid n d v f => rfl, ?_, ?_⟩
  · intro store u w ids b st envs h
    rw [h1 store u w ids b]
    exact h
  · intro store jp js u eid n d v f st env h
    exact h

/-- Witness for claim C8: a concrete successful link update answers the same
success response when the sync throws as when it succeeds. -/
theorem sync_errors_swallowed_witness :
    putWorkspaceEnvironments c6Store "u1" "w1" ["envA"] true =
      ({ workspaces := c6Store.workspaces, environments := c6Store.environments,
          links := [{ workspaceId := "w1", environmentId := "envA" }] },
        .okEnvs [c6EnvA]) :=
  sync_errors_swallowed.2.2.1 c6Store "u1" "w1" ["envA"] true
    { workspaces := c6Store.workspaces, environments := c6Store.environments,
      links := [{ workspaceId := "w1", environmentId := "envA" }] }
    [c6EnvA] (by decide)

/-- Claim C9 (code bug): on a variables payload that is not valid JSON, the
editor's parseVariables and the dialog's getVariableCount treat the record
as empty — but the inline variable-count display of EnvironmentsClient
(part_004 line 285) calls JSON.parse without a try/catch, so the
SyntaxError escapes the render: not every consumer treats invalid JSON as
an empty object, contradicting the claim and the code's own surrounding
convention. -/
theorem invalid_variables_payload_consumers (jsonParse : JsonParseFn) (bad : String)
    (hne : ¬ bad = "") (hparse : jsonParse bad = .error ()) :
    parseVariables jsonParse bad = [] ∧ getVariableCount jsonParse bad = 0 ∧
      environmentsClientVariableCount jsonParse bad = .error () := by
  refine ⟨?_, ?_, ?_⟩
  · unfold parseVariables
    rw [hparse]
  · unfold getVariableCount
    rw [hparse]
  · unfold environmentsClientVariableCount
    rw [if_neg hne, hparse]

/-- Witness for claim C9, with a concrete parse oracle that accepts the
empty-object literal and rejects everything else — consistent with
JSON.parse on the failing input, the string consisting of an opening brace
and the letters b, a, d. -/
theorem invalid_variables_payload_consumers_witness :
    parseVariables (fun s => if s = "\x7b\x7d" then .ok [] else .error ()) "\x7bbad" = [] ∧
      getVariableCount (fun s => if s = "\x7b\x7d" then .ok [] else .error ()) "\x7bbad" = 0 ∧
      environmentsClientVariableCount
        (fun s => if s = "\x7b\x7d" then .ok [] else .error ()) "\x7bbad" = .error () :=
  invalid_variables_payload_consumers _ "\x7bbad" (by decide) rfl
